import Mathlib

set_option maxRecDepth 4000

/-- JSON values as produced by Python `json.loads`. -/
inductive Json where
  | null
  | bool (b : Bool)
  | int (n : Int)
  | float (raw : String)
  | str (s : String)
  | arr (xs : List Json)
  | obj (fields : List (String × Json))
  deriving Repr

def lbrace : Char := Char.ofNat 123
def rbrace : Char := Char.ofNat 125

def skipWs : List Char → List Char
  | [] => []
  | c :: cs => if c = ' ' ∨ c = '\t' ∨ c = '\n' ∨ c = '\r' then skipWs cs else c :: cs

def hexVal (c : Char) : Option Nat :=
  if '0' ≤ c ∧ c ≤ '9' then some (c.toNat - '0'.toNat)
  else if 'a' ≤ c ∧ c ≤ 'f' then some (c.toNat - 'a'.toNat + 10)
  else if 'A' ≤ c ∧ c ≤ 'F' then some (c.toNat - 'A'.toNat + 10)
  else none

/-- Body of a JSON string literal, after the opening quote: returns the decoded
characters and the input remaining after the closing quote.  Mirrors Python's
strict `json` string scanner: `\` escapes, `\uXXXX`, and unescaped control
characters are rejected. -/
def parseStrBody (acc : List Char) : List Char → Option (String × List Char)
  | [] => none
  | c :: cs =>
    if c = '"' then some (String.mk acc.reverse, cs)
    else if c = '\\' then
      match cs with
      | [] => none
      | e :: cs2 =>
        if e = '"' then parseStrBody ('"' :: acc) cs2
        else if e = '\\' then parseStrBody ('\\' :: acc) cs2
        else if e = '/' then parseStrBody ('/' :: acc) cs2
        else if e = 'b' then parseStrBody (Char.ofNat 8 :: acc) cs2
        else if e = 'f' then parseStrBody (Char.ofNat 12 :: acc) cs2
        else if e = 'n' then parseStrBody ('\n' :: acc) cs2
        else if e = 'r' then parseStrBody ('\r' :: acc) cs2
        else if e = 't' then parseStrBody ('\t' :: acc) cs2
        else if e = 'u' then
          match cs2 with
          | h1 :: h2 :: h3 :: h4 :: cs3 =>
            match hexVal h1, hexVal h2, hexVal h3, hexVal h4 with
            | some a, some b, some c2, some d =>
              parseStrBody (Char.ofNat (((a * 16 + b) * 16 + c2) * 16 + d) :: acc) cs3
            | _, _, _, _ => none
          | _ => none
        else none
    else if c.toNat < 32 then none
    else parseStrBody (c :: acc) cs

def digitsToNat (acc : Nat) : List Char → Nat
  | [] => acc
  | c :: cs => digitsToNat (acc * 10 + (c.toNat - '0'.toNat)) cs

/-- Python `str.lower` restricted to ASCII, which is all the URLs here
need. -/
def lowerStr (s : String) : String := String.mk (s.toList.map Char.toLower)

/-- Python `str.startswith`. -/
def strStartsWith (s p : String) : Bool := p.toList.isPrefixOf s.toList

def splitOnCharAux (sep : Char) : List Char → List Char → List (List Char)
  | [], acc => [acc.reverse]
  | c :: cs, acc =>
    if c = sep then acc.reverse :: splitOnCharAux sep cs []
    else splitOnCharAux sep cs (c :: acc)

/-- Python `str.split(sep)` for a one-character separator. -/
def splitOnChar (sep : Char) (s : String) : List String :=
  (splitOnCharAux sep s.toList []).map String.mk

/-- Whitespace for Python `str.strip` and numeric conversions. -/
def isPySpace (c : Char) : Bool :=
  c = ' ' ∨ c = '\t' ∨ c = '\n' ∨ c = '\r' ∨ c = Char.ofNat 11 ∨ c = Char.ofNat 12

/-- Python `str.strip()`. -/
def stripStr (s : String) : String :=
  String.mk (((s.toList.dropWhile isPySpace).reverse.dropWhile isPySpace).reverse)

/-- JSON number token.  Python's `json` keeps `int` and `float` apart: a token
with a fraction or exponent becomes a float (kept here as its raw text), a bare
integer becomes an `int`.  Leading zeros are rejected as in the JSON grammar. -/
def parseNum (cs : List Char) : Option (Json × List Char) :=
  let (neg, cs1) : Bool × List Char :=
    match cs with
    | '-' :: rest => (true, rest)
    | _ => (false, cs)
  let intDigits := cs1.takeWhile (·.isDigit)
  let afterInt := cs1.dropWhile (·.isDigit)
  if intDigits = [] then none
  else if intDigits.length > 1 ∧ intDigits.head? = some '0' then none
  else
    let (fracDigits, afterFrac) : List Char × List Char :=
      match afterInt with
      | '.' :: rest =>
        (('.' :: rest.takeWhile (·.isDigit)), rest.dropWhile (·.isDigit))
      | _ => ([], afterInt)
    if fracDigits = ['.'] then none
    else
      let (expDigits, afterExp) : List Char × List Char :=
        match afterFrac with
        | 'e' :: rest | 'E' :: rest =>
          let (sgn, rest2) : List Char × List Char :=
            match rest with
            | '+' :: r => (['+'], r)
            | '-' :: r => (['-'], r)
            | _ => ([], rest)
          ('e' :: (sgn ++ rest2.takeWhile (·.isDigit)), rest2.dropWhile (·.isDigit))
        | _ => ([], afterFrac)
      if expDigits ≠ [] ∧ (expDigits.getLast? = some 'e' ∨ expDigits.getLast? = some '+'
          ∨ expDigits.getLast? = some '-') then none
      else if fracDigits = [] ∧ expDigits = [] then
        let n : Int := Int.ofNat (digitsToNat 0 intDigits)
        some (.int (if neg then -n else n), afterInt)
      else
        let raw := String.mk ((if neg then ['-'] else []) ++ intDigits ++ fracDigits ++ expDigits)
        some (.float raw, afterExp)

/-- Python dict insertion: a repeated key keeps its original position but takes
the new value. -/
def insertKey (fs : List (String × Json)) (k : String) (v : Json) : List (String × Json) :=
  match fs with
  | [] => [(k, v)]
  | (k2, v2) :: rest =>
    if k2 = k then (k2, v) :: rest else (k2, v2) :: insertKey rest k v

mutual

/-- One JSON value, mirroring Python `json.loads`' recursive-descent scanner
(`NaN`, `Infinity` and `-Infinity` are accepted, as by Python's defaults). -/
def parseValue : Nat → List Char → Option (Json × List Char)
  | 0, _ => none
  | fuel + 1, cs =>
    let cs := skipWs cs
    match cs with
    | [] => none
    | c :: rest =>
      if c = lbrace then parseObjFirst fuel rest
      else if c = '[' then parseArrFirst fuel rest
      else if c = '"' then
        match parseStrBody [] rest with
        | some (s, rest2) => some (.str s, rest2)
        | none => none
      else if c = 't' then
        match rest with
        | 'r' :: 'u' :: 'e' :: rest2 => some (.bool true, rest2)
        | _ => none
      else if c = 'f' then
        match rest with
        | 'a' :: 'l' :: 's' :: 'e' :: rest2 => some (.bool false, rest2)
        | _ => none
      else if c = 'n' then
        match rest with
        | 'u' :: 'l' :: 'l' :: rest2 => some (.null, rest2)
        | _ => none
      else if c = 'N' then
        match rest with
        | 'a' :: 'N' :: rest2 => some (.float "NaN", rest2)
        | _ => none
      else if c = 'I' then
        match rest with
        | 'n' :: 'f' :: 'i' :: 'n' :: 'i' :: 't' :: 'y' :: rest2 =>
          some (.float "Infinity", rest2)
        | _ => none
      else if c = '-' ∧ rest.head? = some 'I' then
        match rest with
        | 'I' :: 'n' :: 'f' :: 'i' :: 'n' :: 'i' :: 't' :: 'y' :: rest2 =>
          some (.float "-Infinity", rest2)
        | _ => none
      else parseNum cs

/-- After an opening brace: either an immediate closing brace or the members. -/
def parseObjFirst (fuel : Nat) (cs : List Char) : Option (Json × List Char) :=
  match fuel with
  | 0 => none
  | fuel + 1 =>
    let cs := skipWs cs
    match cs with
    | [] => none
    | c :: rest =>
      if c = rbrace then some (.obj [], rest)
      else parseMembers fuel [] cs

/-- One `"key": value` member, then a comma and more members or the closing
brace. -/
def parseMembers (fuel : Nat) (acc : List (String × Json)) (cs : List Char) :
    Option (Json × List Char) :=
  match fuel with
  | 0 => none
  | fuel + 1 =>
    match skipWs cs with
    | '"' :: rest =>
      match parseStrBody [] rest with
      | none => none
      | some (k, rest2) =>
        match skipWs rest2 with
        | ':' :: rest3 =>
          match parseValue fuel rest3 with
          | none => none
          | some (v, rest4) =>
            let acc2 := insertKey acc k v
            match skipWs rest4 with
            | ',' :: rest5 => parseMembers fuel acc2 rest5
            | c :: rest5 =>
              if c = rbrace then some (.obj acc2, rest5) else none
            | [] => none
        | _ => none
    | _ => none

/-- After an opening bracket: either an immediate closing bracket or the
elements. -/
def parseArrFirst (fuel : Nat) (cs : List Char) : Option (Json × List Char) :=
  match fuel with
  | 0 => none
  | fuel + 1 =>
    let cs := skipWs cs
    match cs with
    | [] => none
    | c :: rest =>
      if c = ']' then some (.arr [], rest)
      else parseElems fuel [] cs

/-- One array element, then a comma and more elements or the closing
bracket. -/
def parseElems (fuel : Nat) (acc : List Json) (cs : List Char) :
    Option (Json × List Char) :=
  match fuel with
  | 0 => none
  | fuel + 1 =>
    match parseValue fuel cs with
    | none => none
    | some (v, rest) =>
      match skipWs rest with
      | ',' :: rest2 => parseElems fuel (acc ++ [v]) rest2
      | ']' :: rest2 => some (.arr (acc ++ [v]), rest2)
      | _ => none

end

/-- Python `json.loads`: the whole string must be one JSON value, up to
surrounding whitespace; otherwise (`Extra data`, syntax error, …) it raises,
modelled as `none`. -/
def json_loads (s : String) : Option Json :=
  match parseValue (2 * s.length + 4) s.toList with
  | some (v, rest) => if skipWs rest = [] then some v else none
  | none => none


/-! ### chainlint.py: extract_json_from_text and the message handler -/

/-- Index of the last occurrence of `c` in `cs`, if any. -/
def lastIdxOf (c : Char) (cs : List Char) : Option Nat :=
  match cs with
  | [] => none
  | x :: rest =>
    match lastIdxOf c rest with
    | some i => some (i + 1)
    | none => if x = c then some 0 else none

/-- Index of the first occurrence of `c` in `cs`, if any. -/
def firstIdxOf (c : Char) (cs : List Char) : Option Nat :=
  match cs with
  | [] => none
  | x :: rest =>
    if x = c then some 0
    else match firstIdxOf c rest with
      | some i => some (i + 1)
      | none => none

/-- Model of `chainlint.extract_json_from_text`: `re.search` of the greedy
pattern of an opening brace, anything, a closing brace (DOTALL) takes the span
from the first opening brace that has a closing brace after it through the
last closing brace of the whole text; `json.loads` of that span, `None` on a
parse failure or when no span matches. -/
def extract_json_from_text (text : String) : Option Json :=
  let cs := text.toList
  match lastIdxOf rbrace cs with
  | none => none
  | some j =>
    match firstIdxOf lbrace (cs.take j) with
    | none => none
    | some i => json_loads (String.mk ((cs.drop i).take (j + 1 - i)))

/-- Python runtime errors that the handler path can raise: subscripting `None`
(`TypeError`) and a missing dict key (`KeyError`). -/
inductive PyErr where
  | typeError
  | keyError (k : String)
  deriving DecidableEq, Repr

/-- First value bound to key `k` (keys are unique by `insertKey`). -/
def lookupField (fs : List (String × Json)) (k : String) : Option Json :=
  match fs with
  | [] => none
  | (k2, v) :: rest => if k2 = k then some v else lookupField rest k

/-- Python `x[k]` on a parsed JSON value: `KeyError` on a dict without the
key, `TypeError` on anything that is not a dict. -/
def getItem (j : Json) (k : String) : Except PyErr Json :=
  match j with
  | .obj fs =>
    match lookupField fs k with
    | some v => .ok v
    | none => .error (.keyError k)
  | _ => .error .typeError

/-- Python `==` between a JSON value and a string literal. -/
def jsonEqStr (j : Json) (s : String) : Bool :=
  match j with
  | .str t => t = s
  | _ => false

/-- What the `on_message` handler does next. -/
inductive HandlerStep where
  | toolCall (tool args : Json)
  | textReply (content : Json)
  deriving Repr

/-- Model of the parsing-and-routing path of `chainlint.main` (the
`on_message` handler), lines 313-320: `extract_json_from_text` on the reply
content, then unguarded subscripts `response["action"]`, `response["tool"]`,
`response["arguments"]` / `response["content"]`. -/
def main_on_message (raw : String) : Except PyErr HandlerStep :=
  match extract_json_from_text raw with
  | none => .error .typeError
  | some j => do
    let a ← getItem j "action"
    if jsonEqStr a "use_tool" then
      let t ← getItem j "tool"
      let args ← getItem j "arguments"
      pure (.toolCall t args)
    else
      let c ← getItem j "content"
      pure (.textReply c)

/-- What `LLMClient.generate_response` returns after its own JSON probe. -/
inductive GenResp where
  | toolCall (tool : Option Json) (args : Json)
  | text (content : String)
  deriving Repr

/-- Model of the reply-classification step of `LLMClient.generate_response`
(lines 207-225): `json.loads` on the whole content; a dict whose `action`
equals `use_tool` becomes a tool call with `tool = parsed.get("tool")` and
`arguments = parsed.get("arguments", {})`; otherwise the content is returned
as text. -/
def generate_response_route (content : String) : GenResp :=
  match json_loads content with
  | some (Json.obj fs) =>
    if (match lookupField fs "action" with
        | some v => jsonEqStr v "use_tool"
        | none => false) then
      .toolCall (lookupField fs "tool")
        (match lookupField fs "arguments" with
         | some a => a
         | none => .obj [])
    else .text content
  | some _ => .text content
  | none => .text content

/-! ### chainlint.py: MCPClient.call_tool dispatch -/

/-- Python truthiness of a JSON value (`not x`): `None`, `False`, zero
numbers, and empty strings, lists and dicts are falsy.  A JSON float literal
is zero exactly when its mantissa has no nonzero digit. -/
def truthy (j : Json) : Bool :=
  match j with
  | .null => false
  | .bool b => b
  | .int n => n ≠ 0
  | .float raw => (raw.toList.takeWhile (fun c => c ≠ 'e' ∧ c ≠ 'E')).any
      (fun c => '1' ≤ c ∧ c ≤ '9')
  | .str s => s ≠ ""
  | .arr xs => !xs.isEmpty
  | .obj fs => !fs.isEmpty

/-- The HTTP request `MCPClient.call_tool` issues for a tool, identified by
method, route and payload (`delete_event` interpolates the id into the
route). -/
inductive BackendCall where
  | getReq (route : String) (params : List (String × Json))
  | postReq (route : String) (body : List (String × Json))
  | deleteEvent (event_id : Json)
  deriving Repr

/-- Either the one backend HTTP request `call_tool` performs, or the error
dict it returns without performing any request. -/
inductive ToolOutcome where
  | call (c : BackendCall)
  | errorResult (msg : String)
  deriving Repr

/-- The closed tool catalog of `MCPClient.call_tool`'s dispatch chain. -/
def toolCatalog : List String :=
  ["search_news", "get_top_headlines", "search_web", "parse_rss_feed",
   "add_event", "get_events", "delete_event", "update_config"]

/-- Model of `MCPClient.call_tool` (lines 63-98): the string-equality
dispatch chain; `delete_event` first reads `arguments.get("event_id")` and
returns the error dict when it is absent or falsy; an unknown tool name
returns an error dict.  In both error cases no branch builds a request. -/
def call_tool (tool_name : String) (arguments : List (String × Json)) : ToolOutcome :=
  if tool_name = "search_news" then .call (.getReq "/news/search" arguments)
  else if tool_name = "get_top_headlines" then .call (.getReq "/news/headlines" arguments)
  else if tool_name = "search_web" then .call (.getReq "/web/search" arguments)
  else if tool_name = "parse_rss_feed" then .call (.getReq "/rss/parse" arguments)
  else if tool_name = "add_event" then .call (.postReq "/events" arguments)
  else if tool_name = "get_events" then .call (.getReq "/events" arguments)
  else if tool_name = "delete_event" then
    match lookupField arguments "event_id" with
    | none => .errorResult "event_id is required"
    | some v => if truthy v then .call (.deleteEvent v)
                else .errorResult "event_id is required"
  else if tool_name = "update_config" then .call (.postReq "/config" arguments)
  else .errorResult ("Unknown tool: " ++ tool_name)

/-! ### Calendar events: main_mcp.py /events endpoints (mcp_server.py has the
same delete_event and get_events bodies) -/

/-- One stored calendar event, with the exact fields `add_event` writes. -/
structure Event where
  id : String
  title : String
  description : String
  date : String
  time : String
  location : String
  created_at : String
  deriving DecidableEq, Repr

/-- The request body of `POST /events` (`lib/models.py` `EventCreate`). -/
structure EventCreate where
  title : String
  date : String
  description : String := ""
  time : String := ""
  location : String := ""
  deriving DecidableEq, Repr

/-- Gregorian leap year. -/
def isLeap (y : Nat) : Bool := (y % 4 = 0 ∧ y % 100 ≠ 0) ∨ y % 400 = 0

def daysInMonth (y m : Nat) : Nat :=
  if m = 2 then (if isLeap y then 29 else 28)
  else if m = 4 ∨ m = 6 ∨ m = 9 ∨ m = 11 then 30
  else 31

/-- Model of `datetime.strptime(s, "%Y-%m-%d")` success on zero-padded dates:
four year digits, two month digits, two day digits, and a real calendar
date. -/
def parseDate (s : String) : Option (Nat × Nat × Nat) :=
  match s.toList with
  | [y1, y2, y3, y4, '-', m1, m2, '-', d1, d2] =>
    if [y1, y2, y3, y4, m1, m2, d1, d2].all (·.isDigit) then
      let y := digitsToNat 0 [y1, y2, y3, y4]
      let m := digitsToNat 0 [m1, m2]
      let d := digitsToNat 0 [d1, d2]
      if 1 ≤ m ∧ m ≤ 12 ∧ 1 ≤ d ∧ d ≤ daysInMonth y m then some (y, m, d) else none
    else none
  | _ => none

/-- Model of `datetime.strptime(s, "%H:%M")` success on zero-padded times. -/
def parseTimeHM (s : String) : Option (Nat × Nat) :=
  match s.toList with
  | [h1, h2, ':', n1, n2] =>
    if [h1, h2, n1, n2].all (·.isDigit) then
      let h := digitsToNat 0 [h1, h2]
      let n := digitsToNat 0 [n1, n2]
      if h ≤ 23 ∧ n ≤ 59 then some (h, n) else none
    else none
  | _ => none

/-- Days before the first of month `m` in a non-leap year. -/
def daysBeforeMonth (m : Nat) : Nat :=
  match m with
  | 1 => 0 | 2 => 31 | 3 => 59 | 4 => 90 | 5 => 120 | 6 => 151
  | 7 => 181 | 8 => 212 | 9 => 243 | 10 => 273 | 11 => 304 | _ => 334

/-- Proleptic Gregorian ordinal of a date, as `datetime.date.toordinal`:
comparing dates compares ordinals, and `timedelta(days=k)` adds `k`. -/
def dateOrdinal (ymd : Nat × Nat × Nat) : Nat :=
  let y := ymd.1
  let m := ymd.2.1
  let d := ymd.2.2
  365 * (y - 1) + (y - 1) / 4 - (y - 1) / 100 + (y - 1) / 400
    + daysBeforeMonth m + (if 3 ≤ m ∧ isLeap y then 1 else 0) + d

/-- The `EventCreate` pydantic validators: the date must parse; the time, when
present and not whitespace, must parse. -/
def eventCreateValid (e : EventCreate) : Bool :=
  (parseDate e.date).isSome ∧
  (e.time = "" ∨ stripStr e.time = "" ∨ (parseTimeHM e.time).isSome)

/-- Model of `POST /events` (`add_event`): builds the event dict and appends
it to the store.  The generated id (`event_{len+1}_{timestamp}`) and
`created_at` involve the wall clock, passed here as parameters. -/
def add_event (e : EventCreate) (eventId createdAt : String) (events : List Event) :
    List Event × Event :=
  let ev : Event :=
    ⟨eventId, e.title, e.description, e.date, e.time, e.location, createdAt⟩
  (events ++ [ev], ev)

/-- Model of `DELETE /events/{event_id}`: pops the first event with that id
and returns it, or raises 404 leaving the store as it was. -/
def delete_event (event_id : String) (events : List Event) :
    Except Nat Event × List Event :=
  match events with
  | [] => (.error 404, [])
  | e :: rest =>
    if e.id = event_id then (.ok e, rest)
    else
      match delete_event event_id rest with
      | (.ok d, rest2) => (.ok d, e :: rest2)
      | (.error c, _) => (.error c, e :: rest)

/-- The sort key of `get_events`: the pair of date and time strings, compared
lexicographically as Python compares string tuples. -/
def eventKeyLe (a b : Event) : Prop :=
  a.date < b.date ∨ (a.date = b.date ∧ a.time ≤ b.time)

instance : DecidableRel eventKeyLe := fun a b => by
  unfold eventKeyLe; infer_instance

instance : IsTotal Event eventKeyLe where
  total a b := by
    rcases lt_trichotomy a.date b.date with h | h | h
    · exact Or.inl (Or.inl h)
    · rcases le_total a.time b.time with h2 | h2
      · exact Or.inl (Or.inr ⟨h, h2⟩)
      · exact Or.inr (Or.inr ⟨h.symm, h2⟩)
    · exact Or.inr (Or.inl h)

instance : IsTrans Event eventKeyLe where
  trans a b c hab hbc := by
    rcases hab with h1 | ⟨h1, h1t⟩
    · rcases hbc with h2 | ⟨h2, _⟩
      · exact Or.inl (h1.trans h2)
      · exact Or.inl (h2 ▸ h1)
    · rcases hbc with h2 | ⟨h2, h2t⟩
      · exact Or.inl (h1 ▸ h2)
      · exact Or.inr ⟨h1.trans h2, h1t.trans h2t⟩

/-- The body of a `GET /events` response. -/
structure EventsResult where
  events : List Event
  total_count : Nat
  deriving DecidableEq, Repr

/-- Model of `GET /events`: with a `date`, validate it (400 when malformed)
and keep the events whose date equals it; without one, keep the events whose
parsed date lies in `[today, today + days_ahead]`, skipping unparseable
dates.  Either way the kept events are sorted by the (date, time) key with
Python's stable sort, modelled by `List.insertionSort` (also stable). -/
def get_events (dateQ : Option String) (days_ahead : Int) (today : Nat × Nat × Nat)
    (events : List Event) : Except Nat EventsResult :=
  match dateQ with
  | some date =>
    match parseDate date with
    | none => .error 400
    | some _ =>
      let filtered := events.filter (fun e => e.date == date)
      let sorted := filtered.insertionSort eventKeyLe
      .ok ⟨sorted, sorted.length⟩
  | none =>
    let t : Int := (dateOrdinal today : Int)
    let filtered := events.filter (fun e =>
      match parseDate e.date with
      | some ymd => decide (t ≤ (dateOrdinal ymd : Int) ∧ (dateOrdinal ymd : Int) ≤ t + days_ahead)
      | none => false)
    let sorted := filtered.insertionSort eventKeyLe
    .ok ⟨sorted, sorted.length⟩

/-! ### lib/utils.py: validate_url and fetch_single_rss_feed;
lib/services.py: RSSService.fetch_feeds_concurrent -/

/-- Characters a URL scheme may contain after its leading letter. -/
def isSchemeChar (c : Char) : Bool :=
  c.isAlphanum ∨ c = '+' ∨ c = '-' ∨ c = '.'

/-- Longest initial segment before any of `stops`, and the remainder. -/
def takeUntilAny (stops : List Char) (cs : List Char) : List Char × List Char :=
  match cs with
  | [] => ([], [])
  | c :: rest =>
    if stops.contains c then ([], cs)
    else
      let (a, b) := takeUntilAny stops rest
      (c :: a, b)

/-- The part of a netloc after its last `@` (the userinfo split of
`urllib.parse`). -/
def afterLastAt (cs : List Char) : List Char :=
  match cs with
  | [] => []
  | c :: rest =>
    if rest.contains '@' then afterLastAt rest
    else if c = '@' then rest
    else cs

/-- The two `urlparse` fields `validate_url` reads. -/
structure UrlParts where
  scheme : String
  hostname : Option String
  deriving DecidableEq, Repr

/-- Model of `urllib.parse.urlparse` restricted to scheme and hostname: the
scheme is the lowercased part before the first `:` when it is a well-formed
scheme token; the hostname comes from a netloc introduced by `//` — userinfo
before the last `@` is dropped, a bracketed IPv6 literal keeps the brackets'
inside, otherwise the part before the first `:` — lowercased, `none` when
empty. -/
def urlparse (url : String) : UrlParts :=
  let cs := url.toList
  let (scheme, rest) : String × List Char :=
    let (pre, post) := takeUntilAny [':'] cs
    match post with
    | ':' :: restAfter =>
      if pre ≠ [] ∧ pre.head?.elim false Char.isAlpha ∧ pre.all isSchemeChar then
        (lowerStr (String.mk pre), restAfter)
      else ("", cs)
    | _ => ("", cs)
  match rest with
  | '/' :: '/' :: rest2 =>
    let netloc := (takeUntilAny ['/', '?', '#'] rest2).1
    let hostport := afterLastAt netloc
    let host : List Char :=
      match hostport with
      | '[' :: more => (takeUntilAny [']'] more).1
      | _ => (takeUntilAny [':'] hostport).1
    if host = [] then ⟨scheme, none⟩
    else ⟨scheme, some (lowerStr (String.mk host))⟩
  | _ => ⟨scheme, none⟩

/-- A base-10 digit run in Python's numeric-literal grammar: digits with
single underscores strictly between digits (PEP 515).  `none` when empty, a
non-digit appears, an underscore leads, trails, or doubles up; otherwise the
digits with the underscores removed. -/
def pep515Digits : List Char → Option (List Char)
  | [] => none
  | [c] => if c.isDigit then some [c] else none
  | c :: '_' :: cs2 =>
    if c.isDigit then (pep515Digits cs2).map (fun ds => c :: ds) else none
  | c :: c2 :: cs2 =>
    if c.isDigit then (pep515Digits (c2 :: cs2)).map (fun ds => c :: ds) else none

/-- Model of Python `int(s)` on ASCII input: surrounding whitespace, one
sign, then base-10 digits with single underscores between digits (PEP 515);
`ValueError` (`none`) otherwise.  The source additionally accepts non-ASCII
Unicode decimal digits, so a theorem relying on `int` raising restricts its
argument to ASCII, where this model is exact. -/
def pyIntOfStr (s : String) : Option Int :=
  match (stripStr s).toList with
  | '+' :: ds => ((pep515Digits ds).map (digitsToNat 0)).map Int.ofNat
  | '-' :: ds => ((pep515Digits ds).map (digitsToNat 0)).map (fun n => -(Int.ofNat n))
  | ds => ((pep515Digits ds).map (digitsToNat 0)).map Int.ofNat

/-- Model of `lib/utils.validate_url`: scheme allow-list, then the literal
host deny-list `localhost`/`127.0.0.1`/`0.0.0.0`, then the `192.168.`, `10.`
and `172.16-31.` prefix checks; any exception inside (for instance `int` on a
non-numeric second octet) is caught and yields `False`. -/
def validate_url (url : String) : Bool :=
  let p := urlparse url
  if ¬(p.scheme = "http" ∨ p.scheme = "https") then false
  else
    match p.hostname with
    | none => true
    | some h =>
      if h = "localhost" ∨ h = "127.0.0.1" ∨ h = "0.0.0.0" then false
      else if h ≠ "" ∧ strStartsWith h "192.168." then false
      else if h ≠ "" ∧ strStartsWith h "10." then false
      else if h ≠ "" ∧ strStartsWith h "172." then
        let octets := splitOnChar '.' h
        if octets.length = 4 then
          match octets[1]? with
          | some o =>
            match pyIntOfStr o with
            | some n => if 16 ≤ n ∧ n ≤ 31 then false else true
            | none => false
          | none => true
        else true
      else true

/-- One entry of a parsed feed, with the fields `fetch_single_rss_feed`
copies out of `feedparser`'s result. -/
structure FeedEntry where
  title : String
  link : String
  description : String
  published : String
  author : String
  deriving DecidableEq, Repr

/-- The `data` dict built for one successfully fetched feed. -/
structure FeedData where
  feed_title : String
  feed_description : String
  entries : List FeedEntry
  total_entries : Nat
  deriving DecidableEq, Repr

/-- What the transport plus `feedparser` produce for one URL: a parsed feed,
or an exception (connection error, bad status, timeout) raised inside the
task. -/
inductive NetOutcome where
  | resp (feed_title feed_description : String) (entries : List FeedEntry)
  | raise (msg : String)

/-- One entry of the aggregate: the `{url, data}` dict, the `{url, error}`
dict, or the bare `{error}` dict built when `gather` hands back an escaped
exception object. -/
inductive FetchResult where
  | ok (url : String) (data : FeedData)
  | err (url : String) (msg : String)
  | exn (msg : String)
  deriving DecidableEq, Repr

/-- Model of `fetch_single_rss_feed`: the URL gate runs first and returns the
error dict with no request; otherwise one GET runs and any raised exception
is caught at this task's boundary and converted to the error dict.  The
second component records the one network request made, `none` when none
was. -/
def fetch_single_rss_feed (net : String → NetOutcome) (feed_url : String)
    (max_entries : Nat) : FetchResult × Option String :=
  if validate_url feed_url = false then
    (.err feed_url "Invalid or unsafe URL", none)
  else
    match net feed_url with
    | .resp ft fd es =>
      let entries := es.take max_entries
      (.ok feed_url ⟨ft, fd, entries, entries.length⟩, some feed_url)
    | .raise msg => (.err feed_url msg, some feed_url)

/-- The dict `fetch_feeds_concurrent` returns. -/
structure AggregateResult where
  feeds : List FetchResult
  total_feeds : Nat
  deriving DecidableEq, Repr

/-- Per-task outcome as `asyncio.gather(..., return_exceptions=True)` hands
it back: the task's return value, or the exception object that escaped it. -/
def gatherTask (net : String → NetOutcome) (u : String) : Except String FetchResult :=
  .ok (fetch_single_rss_feed net u 5).1

/-- Model of `RSSService.fetch_feeds_concurrent`: one task per input URL;
`asyncio.gather` joins them all and yields their outcomes in task (input)
order, not completion order; escaped exceptions become `{error}` dicts.  The
semaphore bounds how many tasks run at once (modelled separately by `Sched`)
but does not affect which value each task returns. -/
def fetch_feeds_concurrent (net : String → NetOutcome) (feed_urls : List String) :
    AggregateResult :=
  let results := feed_urls.map (gatherTask net)
  let processed := results.map (fun r =>
    match r with
    | .error m => FetchResult.exn m
    | .ok v => v)
  ⟨processed, processed.length⟩

/-! ### lib/services.py lines 93-103: the admission gate

`fetch_feeds_concurrent` wraps every task in `async with semaphore` where
`semaphore = asyncio.Semaphore(max_concurrent)`.  The interleavings of the
tasks around that gate are modelled as a step relation: a task acquires a
free slot and runs, or finds none free and joins the semaphore's FIFO wait
queue; when a running task terminates (success or failure alike — the
`async with` releases on either), the released slot goes to the head of the
wait queue when one is waiting, and back to the free pool otherwise, which is
`asyncio.Semaphore`'s FIFO wake-up discipline. -/

/-- Lifecycle of one fetch task around the semaphore. -/
inductive TStatus where
  | pending
  | waiting
  | inFlight
  | done
  deriving DecidableEq, Repr

/-- The gate's state: one status per task, the FIFO wait queue (task
indices), and the count of free slots. -/
structure Sched where
  tasks : List TStatus
  queue : List Nat
  avail : Nat
  deriving DecidableEq, Repr

/-- How many tasks are in flight. -/
def inFlightCount (s : Sched) : Nat :=
  s.tasks.countP (fun t => t == TStatus.inFlight)

/-- One scheduling step around the semaphore. -/
inductive SchedStep : Sched → Sched → Prop where
  | acquire (ts : List TStatus) (q : List Nat) (k i : Nat)
      (h : ts[i]? = some .pending) :
      SchedStep ⟨ts, q, k + 1⟩ ⟨ts.set i .inFlight, q, k⟩
  | enqueue (ts : List TStatus) (q : List Nat) (i : Nat)
      (h : ts[i]? = some .pending) :
      SchedStep ⟨ts, q, 0⟩ ⟨ts.set i .waiting, q ++ [i], 0⟩
  | finishHandoff (ts : List TStatus) (j : Nat) (rest : List Nat) (a i : Nat)
      (h : ts[i]? = some .inFlight) :
      SchedStep ⟨ts, j :: rest, a⟩ ⟨(ts.set i .done).set j .inFlight, rest, a⟩
  | finishRelease (ts : List TStatus) (a i : Nat)
      (h : ts[i]? = some .inFlight) :
      SchedStep ⟨ts, [], a⟩ ⟨ts.set i .done, [], a + 1⟩

/-- The gate's state when the call starts: `n` pending tasks, an empty wait
queue, `cap` free slots. -/
def initSched (cap n : Nat) : Sched :=
  ⟨List.replicate n .pending, [], cap⟩

/-- States one fetch call can reach. -/
inductive SchedReachable (cap n : Nat) : Sched → Prop where
  | init : SchedReachable cap n (initSched cap n)
  | step {s s2 : Sched} : SchedReachable cap n s → SchedStep s s2 → SchedReachable cap n s2

/-! ### main_mcp.py POST /config with lib/models.py ConfigUpdate -/

/-- A configuration value: the defaults hold strings, ints, a float and a
string list. -/
inductive CV where
  | s (v : String)
  | i (v : Int)
  | f (raw : String)
  | strList (v : List String)
  deriving DecidableEq, Repr

/-- The config dict. -/
abbrev Config := List (String × CV)

/-- The `ConfigUpdate` validator's allow-list (`lib/models.py`). -/
def allowed_settings : List String :=
  ["default_country", "default_language", "max_articles", "api_timeout",
   "max_concurrent_requests"]

/-- Python dict write `cfg[k] = v`: the key keeps its position, or is
appended when new. -/
def dictSet (cfg : Config) (k : String) (v : CV) : Config :=
  match cfg with
  | [] => [(k, v)]
  | (k2, v2) :: rest =>
    if k2 = k then (k2, v) :: rest else (k2, v2) :: dictSet rest k v

/-- Python dict read `cfg.get(k)`. -/
def lookupCV (cfg : Config) (k : String) : Option CV :=
  match cfg with
  | [] => none
  | (k2, v) :: rest => if k2 = k then some v else lookupCV rest k

/-- Longest leading digit run with PEP 515 underscores: the digits (with
underscores dropped) and the remainder, `none` when an underscore is not
flanked by digits.  Entered mid-run; `takeRun` guards the first character. -/
def floatRun : List Char → Option (List Char × List Char)
  | [] => some ([], [])
  | '_' :: cs =>
    match cs with
    | c :: cs2 =>
      if c.isDigit then (floatRun cs2).map (fun p => (c :: p.1, p.2)) else none
    | [] => none
  | c :: cs =>
    if c.isDigit then (floatRun cs).map (fun p => (c :: p.1, p.2)) else some ([], c :: cs)

/-- Longest leading digit run off `cs`, empty when `cs` does not start with
a digit (so a leading underscore is left for the caller to reject). -/
def takeRun (cs : List Char) : Option (List Char × List Char) :=
  match cs with
  | c :: _ => if c.isDigit then floatRun cs else some ([], cs)
  | [] => some ([], [])

/-- Model of Python `float(s)` acceptance on ASCII input: surrounding
whitespace and one sign, then digit runs (PEP 515 underscores allowed) with
at most one dot and at least one digit, an optional exponent, or the words
inf/infinity/nan. -/
def pyFloatOk (s : String) : Bool :=
  let cs0 := (lowerStr (stripStr s)).toList
  let cs :=
    match cs0 with
    | '+' :: r => r
    | '-' :: r => r
    | _ => cs0
  if cs = ['i', 'n', 'f'] ∨ cs = ['i', 'n', 'f', 'i', 'n', 'i', 't', 'y']
      ∨ cs = ['n', 'a', 'n'] then true
  else
    match takeRun cs with
    | none => false
    | some (intD, rest) =>
      match (match rest with
             | '.' :: r => takeRun r
             | _ => some (([] : List Char), rest)) with
      | none => false
      | some (fracD, rest2) =>
        if intD = [] ∧ fracD = [] then false
        else
          match rest2 with
          | [] => true
          | 'e' :: r =>
            let r2 : List Char :=
              match r with
              | '+' :: q => q
              | '-' :: q => q
              | _ => r
            (match r2 with
             | c :: _ =>
               if c.isDigit then
                 match floatRun r2 with
                 | some (ds, []) => ds ≠ []
                 | _ => false
               else false
             | [] => false)
          | _ => false

/-- The success body of `POST /config`. -/
structure UpdateResp where
  setting : String
  old_value : Option CV
  new_value : CV
  deriving DecidableEq, Repr

/-- Model of `POST /config` (`main_mcp.update_config` behind the
`ConfigUpdate` pydantic model): a setting outside the allow-list fails
validation (422) before the handler runs; `max_articles` and
`max_concurrent_requests` must convert with `int` and `api_timeout` with
`float` (400 otherwise); then exactly the named key is written. -/
def update_config (cfg : Config) (setting value : String) :
    Except Nat UpdateResp × Config :=
  if setting ∉ allowed_settings then (.error 422, cfg)
  else if setting = "max_articles" ∨ setting = "max_concurrent_requests" then
    match pyIntOfStr value with
    | none => (.error 400, cfg)
    | some n => (.ok ⟨setting, lookupCV cfg setting, .i n⟩, dictSet cfg setting (.i n))
  else if setting = "api_timeout" then
    if pyFloatOk value then
      (.ok ⟨setting, lookupCV cfg setting, .f value⟩, dictSet cfg setting (.f value))
    else (.error 400, cfg)
  else (.ok ⟨setting, lookupCV cfg setting, .s value⟩, dictSet cfg setting (.s value))

/-- The default configuration (`lib/config.py`). -/
def default_config : Config :=
  [("default_country", .s "us"), ("default_language", .s "en"),
   ("max_articles", .i 20),
   ("default_rss_feeds", .strList ["https://feeds.bbci.co.uk/news/rss.xml",
      "https://rss.cnn.com/rss/edition.rss"]),
   ("api_timeout", .f "30.0"), ("max_concurrent_requests", .i 5)]

/-! ### Concrete inputs used by the theorems -/

/-- A model reply with no JSON object at all. -/
def replyPlainText : String := "Hello! How can I help you today?"

/-- A model reply whose JSON object lacks the `action` field. -/
def replyNoAction : String := "I think \x7b\"foo\": 1\x7d covers it"

/-- A well-formed `use_tool` object on its own. -/
def useToolObject : String :=
  "\x7b\"action\": \"use_tool\", \"tool\": \"get_events\", \"arguments\": \x7b\x7d\x7d"

/-- A reply embedding that object in prose, with a second JSON object later:
the greedy first-brace-to-last-brace span covers both objects and the prose
between them. -/
def replyTwoObjects : String :=
  "Use this: \x7b\"action\": \"use_tool\", \"tool\": \"get_events\", " ++
  "\"arguments\": \x7b\x7d\x7d Done. \x7b\"note\": 1\x7d"

/-- A reply whose embedded `use_tool` object has no `arguments` field. -/
def replyNoArguments : String :=
  "Sure! \x7b\"action\": \"use_tool\", \"tool\": \"get_events\"\x7d"

/-- A pure-JSON reply whose `arguments` value is not an object. -/
def replyNonObjectArguments : String :=
  "\x7b\"action\": \"use_tool\", \"tool\": \"get_events\", \"arguments\": 5\x7d"

/-- A transport on which the target `http://bad.example/feed` raises. -/
def netOneBad : String → NetOutcome := fun u =>
  if u = "http://bad.example/feed" then .raise "connection refused"
  else .resp "Example Feed" "canned feed" [⟨"Item 1", "https://example.com/1", "d", "p", "au"⟩]

/-- The semaphore invariant: in-flight tasks and free slots always add up to
the cap, everything queued is waiting, and nothing is queued twice. -/
def SchedInv (cap : Nat) (s : Sched) : Prop :=
  inFlightCount s + s.avail = cap ∧
  (∀ j ∈ s.queue, s.tasks[j]? = some TStatus.waiting) ∧
  s.queue.Nodup

/-- A reachable gate state used below: cap 1, two tasks, one in flight and
one queued. -/
def schedDemo : Sched := ⟨[TStatus.inFlight, TStatus.waiting], [1], 0⟩

/-- Sample stored events. -/
def sampleEvent1 : Event :=
  ⟨"event_1_100", "Standup", "", "2025-03-01", "09:00", "", "t0"⟩

def sampleEvent2 : Event :=
  ⟨"event_2_200", "Review", "", "2025-03-02", "14:00", "", "t1"⟩

/-- A sample `POST /events` body. -/
def sampleCreate : EventCreate :=
  { title := "Standup", date := "2025-03-01", time := "09:00" }

/-! ## Theorems -/

/-! ### C1, C2, C3: the ActionParser path of chainlint.py -/

/-- C1: the claim says that for a reply in which no JSON object is found, or
the found JSON fails to parse, or it parses but lacks the required action
fields, the extract-then-handle path never raises and yields a `TextAction`
carrying the original text.  The code instead raises: for plain text,
`extract_json_from_text` returns `None` and the handler's `response["action"]`
subscript is a `TypeError`; for a parsed object without `"action"`, it is a
`KeyError`. -/
theorem c1_parse_path_raises_on_bad_reply :
    main_on_message replyPlainText = .error .typeError ∧
    main_on_message replyNoAction = .error (.keyError "action") :=
  ⟨rfl, rfl⟩

/-- C2: the claim says the parser finds the first syntactically balanced JSON
object.  The code takes the greedy first-brace-to-last-brace span instead:
on a reply that embeds a well-formed `use_tool` object (shown parseable on
its own) and a second object later, that span covers both objects and the
prose between them, `json.loads` fails, extraction yields `None`, and the
handler raises instead of extracting the tool call. -/
theorem c2_first_to_last_brace_span_fails :
    replyTwoObjects = "Use this: " ++ useToolObject ++ " Done. \x7b\"note\": 1\x7d" ∧
    json_loads useToolObject =
      some (.obj [("action", .str "use_tool"), ("tool", .str "get_events"),
        ("arguments", .obj [])]) ∧
    extract_json_from_text replyTwoObjects = none ∧
    main_on_message replyTwoObjects = .error .typeError :=
  ⟨rfl, rfl, rfl, rfl⟩

/-- C3: the claim says a `use_tool` reply whose `arguments` is missing or not
an object yields a `ToolAction` with an empty argument mapping and no error.
In the code, only `generate_response`'s own probe defaults a missing
`arguments` to `{}`; the `on_message` handler that actually routes the reply
subscripts `response["arguments"]` unguarded and raises `KeyError` when the
field is missing (the reply with prose around the object reaches that path
because the whole-content `json.loads` fails), and a non-object `arguments`
value is forwarded unchanged rather than replaced by an empty mapping. -/
theorem c3_missing_arguments_raises :
    generate_response_route replyNoArguments = .text replyNoArguments ∧
    main_on_message replyNoArguments = .error (.keyError "arguments") ∧
    generate_response_route replyNonObjectArguments =
      .toolCall (some (.str "get_events")) (.int 5) :=
  ⟨rfl, rfl, rfl⟩

/-! ### C7: MCPClient.call_tool guards -/

/-- C7: a tool name outside the catalog yields the error dict and no branch
builds a backend request; `delete_event` without `event_id` in its arguments
yields the validation error dict, again with no request. -/
theorem c7_call_tool_guards (name : String) (args : List (String × Json)) :
    (name ∉ toolCatalog →
      call_tool name args = .errorResult ("Unknown tool: " ++ name)) ∧
    (lookupField args "event_id" = none →
      call_tool "delete_event" args = .errorResult "event_id is required") := by
  constructor
  · intro h
    simp only [toolCatalog, List.mem_cons, List.not_mem_nil, or_false, not_or] at h
    obtain ⟨h1, h2, h3, h4, h5, h6, h7, h8⟩ := h
    simp [call_tool, h1, h2, h3, h4, h5, h6, h7, h8]
  · intro h
    simp [call_tool, h]

theorem c7_call_tool_guards_witness :
    call_tool "frobnicate" [] = .errorResult "Unknown tool: frobnicate" ∧
    call_tool "delete_event" [] = .errorResult "event_id is required" :=
  ⟨(c7_call_tool_guards "frobnicate" []).1 (by decide),
   (c7_call_tool_guards "delete_event" []).2 rfl⟩

/-! ### C8: DELETE /events/{event_id} with an unknown id -/

/-- C8: when no stored event has the requested id, `delete_event` raises 404
and the store — in particular its length — is exactly what it was. -/
theorem c8_delete_event_not_found (event_id : String) (events : List Event)
    (h : ∀ e ∈ events, e.id ≠ event_id) :
    delete_event event_id events = (.error 404, events) := by
  induction events with
  | nil => rfl
  | cons e rest ih =>
    have he : e.id ≠ event_id := h e (by simp)
    have hrest : ∀ x ∈ rest, x.id ≠ event_id := fun x hx => h x (by simp [hx])
    simp [delete_event, he, ih hrest]

theorem c8_delete_event_not_found_witness :
    delete_event "event_9_999" [sampleEvent1, sampleEvent2] =
      (.error 404, [sampleEvent1, sampleEvent2]) ∧
    [sampleEvent1, sampleEvent2].length = 2 :=
  ⟨c8_delete_event_not_found "event_9_999" [sampleEvent1, sampleEvent2] (by decide), rfl⟩

/-! ### C4: fetch_feeds_concurrent cardinality, order and isolation -/

/-- Entry `i` of the aggregate is the result of fetching input URL `i`. -/
theorem fetch_feeds_entry (net : String → NetOutcome) (urls : List String) (i : Nat) :
    (fetch_feeds_concurrent net urls).feeds[i]? =
      (urls[i]?).map (fun u => (fetch_single_rss_feed net u 5).1) := by
  simp only [fetch_feeds_concurrent, List.map_map, List.getElem?_map, gatherTask,
    Function.comp]
  cases urls[i]? <;> rfl

/-- C4: for every list of N target URIs the aggregate has exactly N entries,
`total_feeds = N`, and entry `i` is determined by input URI `i` alone and
sits at position `i` — so output order equals input order and one target's
failure can neither remove, reorder nor alter the other entries. -/
theorem c4_fetch_feeds_shape (net : String → NetOutcome) (urls : List String) :
    (fetch_feeds_concurrent net urls).total_feeds = urls.length ∧
    (fetch_feeds_concurrent net urls).feeds.length = urls.length ∧
    ∀ i : Nat, (fetch_feeds_concurrent net urls).feeds[i]? =
      (urls[i]?).map (fun u => (fetch_single_rss_feed net u 5).1) := by
  refine ⟨?_, ?_, fun i => fetch_feeds_entry net urls i⟩ <;>
    simp [fetch_feeds_concurrent]

/-! ### C9: add_event followed by get_events, and the sort order -/

/-- Two events relatable by the sort key and sharing a date are ordered by
time. -/
theorem eventKeyLe_same_date {a b : Event} (hab : eventKeyLe a b)
    (hd : a.date = b.date) : a.time ≤ b.time := by
  rcases hab with h | ⟨_, ht⟩
  · exact absurd (hd ▸ h) (lt_irrefl _)
  · exact ht

/-- C9: adding an event with date `d` and then querying `get_events` for `d`
returns a result containing that event; and every `get_events` result is
pairwise ordered so that events sharing a date appear sorted ascending by
their time field. -/
theorem c9_add_then_get_sorted :
    (∀ (e : EventCreate) (eventId createdAt : String) (events : List Event)
        (days : Int) (today : Nat × Nat × Nat),
      (parseDate e.date).isSome = true →
      ∃ r, get_events (some e.date) days today (add_event e eventId createdAt events).1
          = .ok r ∧ (add_event e eventId createdAt events).2 ∈ r.events) ∧
    (∀ (dateQ : Option String) (days : Int) (today : Nat × Nat × Nat)
        (events : List Event) (r : EventsResult),
      get_events dateQ days today events = .ok r →
      r.events.Pairwise (fun a b => a.date = b.date → a.time ≤ b.time)) := by
  constructor
  · intro e eventId createdAt events days today h
    obtain ⟨ymd, hymd⟩ := Option.isSome_iff_exists.mp h
    have hg : get_events (some e.date) days today (add_event e eventId createdAt events).1
        = .ok ⟨(((add_event e eventId createdAt events).1.filter
              (fun x => x.date == e.date)).insertionSort eventKeyLe),
            (((add_event e eventId createdAt events).1.filter
              (fun x => x.date == e.date)).insertionSort eventKeyLe).length⟩ := by
      simp only [get_events]
      rw [hymd]
    refine ⟨_, hg, ?_⟩
    rw [List.mem_insertionSort]
    apply List.mem_filter.mpr
    refine ⟨List.mem_append_right _ ?_, ?_⟩
    · exact List.mem_singleton.mpr rfl
    · simp [add_event]
  · intro dateQ days today events r hr
    have hs : ∃ l : List Event, r.events = l.insertionSort eventKeyLe := by
      cases dateQ with
      | none =>
        simp only [get_events] at hr
        have := Except.ok.inj hr
        exact ⟨_, by rw [← this]⟩
      | some date =>
        simp only [get_events] at hr
        cases hd : parseDate date with
        | none => rw [hd] at hr; exact absurd hr (by simp)
        | some ymd =>
          rw [hd] at hr
          have := Except.ok.inj hr
          exact ⟨_, by rw [← this]⟩
    obtain ⟨l, hl⟩ := hs
    rw [hl]
    exact (List.sorted_insertionSort eventKeyLe l).imp
      (fun hab hd => eventKeyLe_same_date hab hd)

theorem c9_add_then_get_sorted_witness :
    ∃ r, get_events (some "2025-03-01") 7 (2025, 3, 1)
        (add_event sampleCreate "event_1_123" "t0" []).1 = .ok r ∧
      (add_event sampleCreate "event_1_123" "t0" []).2 ∈ r.events :=
  c9_add_then_get_sorted.1 sampleCreate "event_1_123" "t0" [] 7 (2025, 3, 1) (by decide)

/-! ### C10: POST /config frame conditions -/

/-- Writing one key of a dict leaves every other key's lookup unchanged. -/
theorem lookupCV_dictSet_ne (cfg : Config) (k k2 : String) (v : CV) (h : k ≠ k2) :
    lookupCV (dictSet cfg k2 v) k = lookupCV cfg k := by
  have hk2 : ¬k2 = k := fun he => h he.symm
  induction cfg with
  | nil => simp [dictSet, lookupCV, hk2]
  | cons p rest ih =>
    obtain ⟨k3, v3⟩ := p
    by_cases h3 : k3 = k2
    · subst h3
      simp [dictSet, lookupCV, hk2]
    · simp [dictSet, lookupCV, h3, ih]

/-- Writing a key makes its lookup the written value. -/
theorem lookupCV_dictSet_self (cfg : Config) (k : String) (v : CV) :
    lookupCV (dictSet cfg k v) k = some v := by
  induction cfg with
  | nil => simp [dictSet, lookupCV]
  | cons p rest ih =>
    obtain ⟨k2, v2⟩ := p
    by_cases h : k2 = k
    · subst h
      simp [dictSet, lookupCV]
    · simp [dictSet, lookupCV, h, ih]

/-- C10: an `update_config` call for a setting outside the allow-list leaves
the configuration exactly as it was; any call leaves every key other than the
named setting unchanged; and a successful call sets exactly the named key to
the reported new value. -/
theorem c10_update_config_frame (cfg : Config) (setting value : String) :
    (setting ∉ allowed_settings → (update_config cfg setting value).2 = cfg) ∧
    (∀ k, k ≠ setting →
      lookupCV (update_config cfg setting value).2 k = lookupCV cfg k) ∧
    (∀ resp, (update_config cfg setting value).1 = .ok resp →
      lookupCV (update_config cfg setting value).2 setting = some resp.new_value) := by
  refine ⟨?_, ?_, ?_⟩
  · intro hA
    simp [update_config, hA]
  · intro k hk
    unfold update_config
    by_cases h1 : setting ∉ allowed_settings
    · rw [if_pos h1]
    · rw [if_neg h1]
      by_cases h2 : setting = "max_articles" ∨ setting = "max_concurrent_requests"
      · rw [if_pos h2]
        cases hp : pyIntOfStr value
        · rfl
        · exact lookupCV_dictSet_ne _ _ _ _ hk
      · rw [if_neg h2]
        by_cases h3 : setting = "api_timeout"
        · rw [if_pos h3]
          by_cases h4 : pyFloatOk value = true
          · rw [if_pos h4]
            exact lookupCV_dictSet_ne _ _ _ _ hk
          · rw [if_neg h4]
        · rw [if_neg h3]
          exact lookupCV_dictSet_ne _ _ _ _ hk
  · intro resp hresp
    unfold update_config at hresp ⊢
    by_cases h1 : setting ∉ allowed_settings
    · rw [if_pos h1] at hresp
      exact absurd hresp (by simp)
    · rw [if_neg h1] at hresp ⊢
      by_cases h2 : setting = "max_articles" ∨ setting = "max_concurrent_requests"
      · rw [if_pos h2] at hresp ⊢
        cases hp : pyIntOfStr value with
        | none =>
          rw [hp] at hresp
          exact absurd hresp (by simp)
        | some n =>
          rw [hp] at hresp
          have h5 := Except.ok.inj hresp
          show lookupCV (dictSet cfg setting (CV.i n)) setting = some resp.new_value
          rw [lookupCV_dictSet_self, ← h5]
      · rw [if_neg h2] at hresp ⊢
        by_cases h3 : setting = "api_timeout"
        · rw [if_pos h3] at hresp ⊢
          by_cases h4 : pyFloatOk value = true
          · rw [if_pos h4] at hresp ⊢
            have := Except.ok.inj hresp
            rw [lookupCV_dictSet_self, ← this]
          · rw [if_neg h4] at hresp
            exact absurd hresp (by simp)
        · rw [if_neg h3] at hresp ⊢
          have := Except.ok.inj hresp
          rw [lookupCV_dictSet_self, ← this]

theorem c10_update_config_frame_witness :
    lookupCV (update_config default_config "max_articles" "25").2 "default_country"
      = lookupCV default_config "default_country" ∧
    (update_config default_config "unknown_setting" "x").2 = default_config :=
  ⟨(c10_update_config_frame default_config "max_articles" "25").2.1 "default_country"
      (by decide),
   (c10_update_config_frame default_config "unknown_setting" "x").1 (by decide)⟩

/-! ### C5: the semaphore bound and FIFO admission -/

/-- Setting an index changes `countP` by swapping the old element's
contribution for the new one's. -/
theorem countP_set_add {α : Type} (l : List α) (i : Nat) (a b : α) (p : α → Bool)
    (h : l[i]? = some a) :
    (l.set i b).countP p + (if p a then 1 else 0)
      = l.countP p + (if p b then 1 else 0) := by
  induction l generalizing i with
  | nil => simp at h
  | cons x xs ih =>
    cases i with
    | zero =>
      simp only [List.getElem?_cons_zero, Option.some.injEq] at h
      subst h
      simp [List.countP_cons]
      omega
    | succ n =>
      simp only [List.getElem?_cons_succ] at h
      simp only [List.set, List.countP_cons]
      have := ih n h
      omega

/-- Setting one index leaves the others unchanged. -/
theorem getElem?_set_ne_idx {α : Type} (l : List α) (i j : Nat) (b : α) (h : i ≠ j) :
    (l.set i b)[j]? = l[j]? := by
  induction l generalizing i j with
  | nil => simp
  | cons x xs ih =>
    cases i with
    | zero =>
      cases j with
      | zero => exact absurd rfl h
      | succ m => simp [List.set]
    | succ n =>
      cases j with
      | zero => simp [List.set]
      | succ m =>
        simp only [List.set, List.getElem?_cons_succ]
        exact ih n m (fun he => h (by rw [he]))

/-- Setting an in-range index stores the new element there. -/
theorem getElem?_set_self_of_some {α : Type} (l : List α) (i : Nat) (a b : α)
    (h : l[i]? = some a) :
    (l.set i b)[i]? = some b := by
  induction l generalizing i with
  | nil => simp at h
  | cons x xs ih =>
    cases i with
    | zero => simp [List.set]
    | succ n =>
      simp only [List.getElem?_cons_succ] at h
      simp only [List.set, List.getElem?_cons_succ]
      exact ih n h

theorem countP_replicate_false {α : Type} (n : Nat) (a : α) (p : α → Bool)
    (h : p a = false) :
    (List.replicate n a).countP p = 0 := by
  induction n with
  | zero => simp
  | succ m ih => simp [List.replicate, List.countP_cons, h, ih]

/-- The invariant holds at the start of a fetch call. -/
theorem schedInv_init (cap n : Nat) : SchedInv cap (initSched cap n) := by
  refine ⟨?_, ?_, List.nodup_nil⟩
  · simp [initSched, inFlightCount, countP_replicate_false]
  · intro j hj
    simp [initSched] at hj

/-- Every scheduling step preserves the invariant. -/
theorem schedInv_step {cap : Nat} {s s2 : Sched} (hs : SchedInv cap s)
    (st : SchedStep s s2) : SchedInv cap s2 := by
  obtain ⟨hsum, hq, hnd⟩ := hs
  cases st with
  | acquire ts q k i h =>
    refine ⟨?_, ?_, hnd⟩
    · have hc := countP_set_add ts i _ TStatus.inFlight (fun t => t == TStatus.inFlight) h
      simp [inFlightCount] at hc hsum ⊢
      omega
    · intro j hj
      have hw := hq j hj
      have hne : i ≠ j := fun he => by
        rw [he] at h
        rw [h] at hw
        simp at hw
      rw [getElem?_set_ne_idx _ _ _ _ hne]
      exact hw
  | enqueue ts q i h =>
    refine ⟨?_, ?_, ?_⟩
    · have hc := countP_set_add ts i _ TStatus.waiting (fun t => t == TStatus.inFlight) h
      simp [inFlightCount] at hc hsum ⊢
      omega
    · intro j hj
      rcases List.mem_append.mp hj with hj2 | hj2
      · have hw := hq j hj2
        have hne : i ≠ j := fun he => by
          rw [he] at h
          rw [h] at hw
          simp at hw
        rw [getElem?_set_ne_idx _ _ _ _ hne]
        exact hw
      · have : j = i := List.mem_singleton.mp hj2
        subst this
        exact getElem?_set_self_of_some _ _ _ _ h
    · rw [List.nodup_append]
      refine ⟨hnd, List.nodup_singleton i, ?_⟩
      intro a ha hb
      have : a = i := List.mem_singleton.mp hb
      subst this
      have hw := hq a ha
      rw [h] at hw
      simp at hw
  | finishHandoff ts j0 rest a i h =>
    have hw0 : ts[j0]? = some TStatus.waiting := hq j0 (List.mem_cons_self j0 rest)
    have hij : i ≠ j0 := fun he => by
      rw [he] at h
      rw [h] at hw0
      simp at hw0
    refine ⟨?_, ?_, hnd.of_cons⟩
    · have hc1 := countP_set_add ts i _ TStatus.done (fun t => t == TStatus.inFlight) h
      have hl1 : (ts.set i TStatus.done)[j0]? = some TStatus.waiting := by
        rw [getElem?_set_ne_idx _ _ _ _ hij]
        exact hw0
      have hc2 := countP_set_add (ts.set i TStatus.done) j0 _ TStatus.inFlight
        (fun t => t == TStatus.inFlight) hl1
      simp [inFlightCount] at hc1 hc2 hsum ⊢
      omega
    · intro x hx
      have hwx := hq x (List.mem_cons_of_mem j0 hx)
      have hxi : i ≠ x := fun he => by
        rw [he] at h
        rw [h] at hwx
        simp at hwx
      have hxj0 : j0 ≠ x := fun he => by
        rw [← he] at hx
        exact (List.nodup_cons.mp hnd).1 hx
      rw [getElem?_set_ne_idx _ _ _ _ hxj0, getElem?_set_ne_idx _ _ _ _ hxi]
      exact hwx
  | finishRelease ts a i h =>
    refine ⟨?_, ?_, List.nodup_nil⟩
    · have hc := countP_set_add ts i _ TStatus.done (fun t => t == TStatus.inFlight) h
      simp [inFlightCount] at hc hsum ⊢
      omega
    · intro j hj
      simp at hj

/-- The invariant holds in every reachable state. -/
theorem schedInv_reachable {cap n : Nat} {s : Sched} (h : SchedReachable cap n s) :
    SchedInv cap s := by
  induction h with
  | init => exact schedInv_init cap n
  | step _ st ih => exact schedInv_step ih st

/-- C5: in every state a fetch call with cap `C ≥ 1` can reach, at most `C`
tasks are in flight; and whenever a step turns a waiting task into an
in-flight one, that task was at the head of the FIFO wait queue — queued
tasks are admitted in arrival order, by the `finishHandoff` step that hands a
terminating task's slot to the next waiter. -/
theorem c5_semaphore_bound (cap n : Nat) (hcap : 1 ≤ cap) (s : Sched)
    (h : SchedReachable cap n s) :
    inFlightCount s ≤ cap ∧
    (∀ s2, SchedStep s s2 → ∀ j, s.tasks[j]? = some TStatus.waiting →
      s2.tasks[j]? = some TStatus.inFlight → s.queue.head? = some j) := by
  refine ⟨?_, ?_⟩
  · have hsum := (schedInv_reachable h).1
    omega
  · intro s2 st j hw hf
    cases st with
    | acquire ts q k i hi =>
      by_cases hij : i = j
      · subst hij
        rw [hi] at hw
        simp at hw
      · rw [getElem?_set_ne_idx _ _ _ _ hij] at hf
        rw [hf] at hw
        simp at hw
    | enqueue ts q i hi =>
      by_cases hij : i = j
      · subst hij
        rw [getElem?_set_self_of_some _ _ _ _ hi] at hf
        simp at hf
      · rw [getElem?_set_ne_idx _ _ _ _ hij] at hf
        rw [hf] at hw
        simp at hw
    | finishHandoff ts j0 rest a i hi =>
      by_cases hjj : j = j0
      · subst hjj
        rfl
      · have hij : i ≠ j := fun he => by
          rw [he] at hi
          rw [hi] at hw
          simp at hw
        rw [getElem?_set_ne_idx _ _ _ _ (fun he => hjj he.symm),
          getElem?_set_ne_idx _ _ _ _ hij] at hf
        rw [hf] at hw
        simp at hw
    | finishRelease ts a i hi =>
      have hij : i ≠ j := fun he => by
        rw [he] at hi
        rw [hi] at hw
        simp at hw
      rw [getElem?_set_ne_idx _ _ _ _ hij] at hf
      rw [hf] at hw
      simp at hw

theorem c5_semaphore_bound_witness :
    inFlightCount schedDemo ≤ 1 := by
  have r0 : SchedReachable 1 2 ⟨[TStatus.pending, TStatus.pending], [], 1⟩ :=
    SchedReachable.init
  have st1 : SchedStep ⟨[TStatus.pending, TStatus.pending], [], 1⟩
      ⟨[TStatus.inFlight, TStatus.pending], [], 0⟩ := by
    have := SchedStep.acquire [TStatus.pending, TStatus.pending] [] 0 0 (by decide)
    simpa using this
  have st2 : SchedStep ⟨[TStatus.inFlight, TStatus.pending], [], 0⟩ schedDemo := by
    have := SchedStep.enqueue [TStatus.inFlight, TStatus.pending] [] 1 (by decide)
    simpa [schedDemo] using this
  exact (c5_semaphore_bound 1 2 (by decide) schedDemo ((r0.step st1).step st2)).1

/-! ### C6: the SSRF gate -/

